import Mathlib

/-!
Verification of the JD Boundary Uploader feature table dialog
(src/feature_table_dialog.py) against its specification.

The dialog's working layer is modelled as a list of features; a feature is its
attribute list together with one geometry. Geometry union (QgsGeometry.combine)
is an external primitive of the host GIS engine and is therefore a parameter of
every merge definition. All user interactions (file dialogs, the metadata
dialog, table rows) and filesystem facts are explicit inputs.
-/

namespace JDBoundary

/-- An attribute value held by a feature: a string or integer variant, or NULL. -/
inductive Value where
  | null : Value
  | str : String → Value
  | int : Int → Value
deriving DecidableEq

/-- Python truthiness of an attribute value, as in tests like
`if feat.attribute("FIELD_NAME")` at line 465. -/
def Value.truthy : Value → Bool
  | .null => false
  | .str s => decide (s ≠ "")
  | .int n => decide (n ≠ 0)

/-- Models `value or ""` applied to an attribute of the working layer, whose
user-editable fields always hold strings: the string content, with falsy
values replaced by the empty string. -/
def Value.orEmpty : Value → String
  | .str s => s
  | _ => ""

/-- A geometry as seen through the QgsWkbTypes queries the dialog makes:
whether its wkb type is in the polygon family, whether it is a multi type,
plus an abstract payload distinguishing concrete geometries. -/
structure Geometry where
  wkbPolygon : Bool
  wkbMulti : Bool
  payload : Nat
deriving DecidableEq

/-- The POLYGONTYP computation (lines 192-196 and 469-471): 2 for a multi
polygon, 1 for a single polygon, 0 for a non polygon geometry. -/
def polyType (g : Geometry) : Int :=
  if g.wkbPolygon then (if g.wkbMulti then 2 else 1) else 0

/-- A feature of the working layer: its provider-ordered attribute list and
its geometry. -/
structure Feature where
  attrs : List Value
  geom : Geometry
deriving DecidableEq

/-- Index of a field name in the working layer schema created at lines
174-181: CLIENT_NAME, FARM_NAME, FIELD_NAME, POLYGONTYP, GROUPE. -/
def fieldIndex (name : String) : Option Nat :=
  if name = "CLIENT_NAME" then some 0
  else if name = "FARM_NAME" then some 1
  else if name = "FIELD_NAME" then some 2
  else if name = "POLYGONTYP" then some 3
  else if name = "GROUPE" then some 4
  else none

/-- Models QgsFeature.attribute(name) on the working layer schema. -/
def Feature.getAttr (f : Feature) (name : String) : Value :=
  match fieldIndex name with
  | some i => f.attrs.getD i .null
  | none => .null

/-- Models assignment `feat[name] = v` to a named field of a feature. -/
def Feature.setAttr (f : Feature) (name : String) (v : Value) : Feature :=
  match fieldIndex name with
  | some i => ⟨f.attrs.set i v, f.geom⟩
  | none => f

/-- Leading and trailing whitespace removal on a character list, modelling
Python's str.strip(). -/
def stripChars (l : List Char) : List Char :=
  ((l.dropWhile Char.isWhitespace).reverse.dropWhile Char.isWhitespace).reverse

/-- Python's str.strip() on strings. -/
def pyStrip (s : String) : String :=
  ⟨stripChars s.data⟩

/-- The group key of a feature: `(feat.attribute("GROUPE") or "").strip()`,
line 458. -/
def strippedGroup (f : Feature) : String :=
  pyStrip (f.getAttr "GROUPE").orEmpty

/-- A source feature read from the extracted shapefile: its NOPAR attribute
when that field exists, and its geometry. -/
structure RawFeature where
  nopar : Option Value
  geom : Geometry

/-- Lines 185-198: the working layer feature built from one source feature. -/
def importFeature (raw : RawFeature) : Feature :=
  ⟨[.str "", .str "", raw.nopar.getD (.str ""),
    .int (polyType raw.geom), .str ""], raw.geom⟩

/-- One row of the editing table (columns CLIENT_NAME, FARM_NAME,
FIELD_NAME, GROUPE). -/
structure Row where
  client : String
  farm : String
  fieldName : String
  groupe : String

/-- The per-feature part of saveEdits (lines 431-434): the four editable
fields are written back from the table row. -/
def applyRow (f : Feature) (r : Row) : Feature :=
  let f1 := f.setAttr "CLIENT_NAME" (.str r.client)
  let f2 := f1.setAttr "FARM_NAME" (.str r.farm)
  let f3 := f2.setAttr "FIELD_NAME" (.str r.fieldName)
  f3.setAttr "GROUPE" (.str r.groupe)

/-- saveEdits (lines 425-437): the i-th table row is written back to the
i-th feature of the layer. -/
def saveEdits : List Feature → List Row → List Feature
  | [], _ => []
  | fs, [] => fs
  | f :: fs, r :: rs => applyRow f r :: saveEdits fs rs

/-- applyGlobalValues (lines 312-323): the selected rows (all rows when the
selection is empty) receive the global client and farm texts in the table,
then saveEdits runs. -/
def applyGlobalValues (gc gf : String) (sel : List Nat) (rows : List Row)
    (layer : List Feature) : List Feature :=
  let rows2 :=
    if sel.isEmpty then rows.map (fun r => { r with client := gc, farm := gf })
    else rows.enum.map (fun p =>
      if sel.contains p.1 then { p.2 with client := gc, farm := gf } else p.2)
  saveEdits layer rows2

/-- assignGroup (lines 328-339): with a nonempty group name and a nonempty
selection, the selected rows receive the group name, then saveEdits runs;
otherwise nothing changes. -/
def assignGroupOp (g : String) (sel : List Nat) (rows : List Row)
    (layer : List Feature) : List Feature :=
  if g = "" then layer
  else if sel.isEmpty then layer
  else saveEdits layer (rows.enum.map (fun p =>
    if sel.contains p.1 then { p.2 with groupe := g } else p.2))

/-- clearGroupBeforeTerminate (lines 493-498): the GROUPE attribute of every
feature is set to the empty string. -/
def clearGroupBeforeTerminate (layer : List Feature) : List Feature :=
  layer.map (fun f => f.setAttr "GROUPE" (.str ""))

/-- The features of the layer whose stripped GROUPE equals g: the group
lists built at lines 456-460. -/
def groupFeats (layer : List Feature) (g : String) : List Feature :=
  layer.filter (fun f => decide (strippedGroup f = g))

/-- Worker for dedupFirst, carrying the values already emitted. -/
def dedupFirstAux (seen : List String) : List String → List String
  | [] => []
  | a :: l => if a ∈ seen then dedupFirstAux seen l else a :: dedupFirstAux (a :: seen) l

/-- The distinct elements of a list in first-occurrence order: the iteration
order of the `groups` defaultdict built at lines 456-460. -/
def dedupFirst (l : List String) : List String :=
  dedupFirstAux [] l

/-- The group keys of a layer: distinct nonempty stripped GROUPE values, in
first-occurrence order. -/
def groupKeys (layer : List Feature) : List String :=
  dedupFirst ((layer.map strippedGroup).filter (fun s => decide (s ≠ "")))

/-- Whether the group of key g holds at least two features of the layer
(line 462 skips the others). -/
def isBig (layer : List Feature) (g : String) : Bool :=
  decide (2 ≤ (groupFeats layer g).length)

/-- The group keys actually merged: those with at least two features. -/
def bigKeys (layer : List Feature) : List String :=
  (groupKeys layer).filter (isBig layer)

/-- Line 465: the truthy FIELD_NAME values of a group, in group order. -/
def fieldNamesOf (feats : List Feature) : List String :=
  (feats.filter (fun f => (f.getAttr "FIELD_NAME").truthy)).map
    (fun f => (f.getAttr "FIELD_NAME").orEmpty)

/-- Lines 464, 467-468: the union of the group geometries, folded with the
external combine primitive starting from the first geometry. -/
def groupUnion (combine : Geometry → Geometry → Geometry) : List Feature → Geometry
  | [] => ⟨false, false, 0⟩
  | f0 :: rest => rest.foldl (fun acc f => combine acc f.geom) f0.geom

/-- Lines 464-481: the merged feature replacing a group of at least two
features. Junk is returned on smaller groups, which the code never merges. -/
def mergedFeature (combine : Geometry → Geometry → Geometry)
    (layer : List Feature) (g : String) : Feature :=
  match groupFeats layer g with
  | f0 :: f1 :: rest =>
    ⟨[f0.getAttr "CLIENT_NAME", f0.getAttr "FARM_NAME",
      .str (String.intercalate "-" (fieldNamesOf (f0 :: f1 :: rest))),
      .int (polyType (groupUnion combine (f0 :: f1 :: rest))),
      .str g], groupUnion combine (f0 :: f1 :: rest)⟩
  | _ => ⟨[], ⟨false, false, 0⟩⟩

/-- One iteration of the loop at lines 461-486: a group with fewer than two
features is skipped; otherwise its features are deleted from the current
layer and the merged feature is appended. The group lists come from the
layer as it was when the loop started (orig), matching the `groups` dict
built once at lines 456-460. -/
def mergeStep (combine : Geometry → Geometry → Geometry) (orig : List Feature)
    (acc : List Feature) (g : String) : List Feature :=
  if (groupFeats orig g).length < 2 then acc
  else acc.filter (fun f => decide (strippedGroup f ≠ g)) ++ [mergedFeature combine orig g]

/-- mergeGroups (lines 456-486), acting on the layer after saveEdits: every
group key is processed once, in first-occurrence order. -/
def mergeGroups (combine : Geometry → Geometry → Geometry)
    (layer : List Feature) : List Feature :=
  (groupKeys layer).foldl (mergeStep combine layer) layer

/-- clone_feature (lines 68-72): a copy with the same attributes and
geometry. -/
def clone_feature (f : Feature) : Feature :=
  ⟨f.attrs, f.geom⟩

/-- The dialog state the claims range over: the working layer and the
single-level merge backup. -/
structure DialogState where
  layer : List Feature
  lastMergeBackup : Option (List Feature)
deriving DecidableEq

/-- The editing operations offered by the dialog. -/
inductive Op where
  | save (rows : List Row)
  | applyGlobal (gc gf : String) (sel : List Nat) (rows : List Row)
  | assignGrp (g : String) (sel : List Nat) (rows : List Row)
  | merge (combine : Geometry → Geometry → Geometry) (rows : List Row)
  | undo (confirmed : Bool)
  | clearGrp

/-- The effect of each operation on the dialog state. mergeGroups first runs
saveEdits (line 454), snapshots all features (line 455), then merges;
undoMerge (lines 344-362) deletes all features, re-adds the backup, and
clears the backup, when the user confirms and a backup exists. -/
def applyOp : Op → DialogState → DialogState
  | .save rows, st => { st with layer := saveEdits st.layer rows }
  | .applyGlobal gc gf sel rows, st =>
    { st with layer := applyGlobalValues gc gf sel rows st.layer }
  | .assignGrp g sel rows, st => { st with layer := assignGroupOp g sel rows st.layer }
  | .merge combine rows, st =>
    let saved := saveEdits st.layer rows
    { layer := mergeGroups combine saved, lastMergeBackup := some (saved.map clone_feature) }
  | .undo confirmed, st =>
    match st.lastMergeBackup with
    | none => st
    | some backup => if confirmed then { layer := backup, lastMergeBackup := none } else st
  | .clearGrp, st => { st with layer := clearGroupBeforeTerminate st.layer }

/-- The user interactions and filesystem facts exportData (lines 518-573)
depends on: the two save dialogs, the vector writer result, the metadata
dialog outcome as a function of the prefilled defaults, and which shapefile
side files exist on disk after the write. -/
structure ExportEnv where
  shpPath : Option String
  writeOk : Bool
  metaDialog : String → String → Option (String × String)
  zipPath : Option String
  sidecar : String → Bool

/-- An entry of the output ZIP archive: a shapefile part identified by its
extension, or the metadata JSON file. -/
inductive ZipEntry where
  | shapePart (ext : String)
  | metadataJsonFile
deriving DecidableEq

/-- The observable outcome of exportData: an error dialog before anything is
written, or the metadata object written to the JSON file together with the
ZIP contents when the ZIP save dialog was not cancelled. -/
inductive ExportResult where
  | errNoShpPath
  | errWriteFailed
  | ok (json : List (String × String)) (zip : Option (List ZipEntry))
deriving DecidableEq

/-- The side files collected into the ZIP at line 567. -/
def shapefileExts : List String :=
  [".shp", ".shx", ".dbf", ".prj"]

/-- The distinct truthy CLIENT_NAME values of the layer (lines 531-539). -/
def distinctClientVals (layer : List Feature) : List String :=
  dedupFirst ((layer.map (fun f => (f.getAttr "CLIENT_NAME").orEmpty)).filter
    (fun s => decide (s ≠ "")))

/-- The distinct truthy FARM_NAME values of the layer (lines 531-539). -/
def distinctFarmVals (layer : List Feature) : List String :=
  dedupFirst ((layer.map (fun f => (f.getAttr "FARM_NAME").orEmpty)).filter
    (fun s => decide (s ≠ "")))

/-- Line 540: the default shown in the metadata dialog for the client. -/
def defaultClient (layer : List Feature) : String :=
  match distinctClientVals layer with
  | [c] => c
  | _ => ""

/-- Line 541: the default shown in the metadata dialog for the farm. -/
def defaultFarm (layer : List Feature) : String :=
  match distinctFarmVals layer with
  | [c] => c
  | _ => ""

/-- Lines 549-554: the metadata object written to the JSON file. -/
def metadataJson (gc gf : String) : List (String × String) :=
  [("Version", "1.0"), ("ClientName", gc), ("FarmName", gf), ("ShapeDataType", "Boundary")]

/-- Lines 566-572: the entries of the output ZIP: the shapefile side files
that exist, then the metadata JSON file, which was created at line 557 and
hence exists. -/
def zipEntriesOf (env : ExportEnv) : List ZipEntry :=
  (shapefileExts.filter env.sidecar).map ZipEntry.shapePart ++ [ZipEntry.metadataJsonFile]

/-- Lines 561-573: the ZIP is only written when the second save dialog
returns a path. -/
def zipOpt (env : ExportEnv) : Option (List ZipEntry) :=
  match env.zipPath with
  | none => none
  | some _ => some (zipEntriesOf env)

/-- exportData (lines 518-573). -/
def exportData (layer : List Feature) (env : ExportEnv) : ExportResult :=
  match env.shpPath with
  | none => .errNoShpPath
  | some _ =>
    if env.writeOk then
      match env.metaDialog (defaultClient layer) (defaultFarm layer) with
      | some cf => .ok (metadataJson cf.1 cf.2) (zipOpt env)
      | none => .ok (metadataJson "--" "--") (zipOpt env)
    else .errWriteFailed

/-- terminateAndClearGroup (lines 504-512): the GROUPE attributes are
cleared first, and the cleared layer is what exportData runs on. -/
def terminateAndClearGroup (layer : List Feature) (env : ExportEnv) :
    List Feature × ExportResult :=
  let cleared := clearGroupBeforeTerminate layer
  (cleared, exportData cleared env)

/-- The inputs _extractZipAndCreateLayer (lines 142-201) depends on: the
open dialog result, the file names found under the extraction directory,
the validity of the ogr layer, and its features. -/
structure ExtractEnv where
  zipChosen : Option String
  files : List String
  layerValid : Bool
  rawFeats : List RawFeature

/-- The observable outcome of _extractZipAndCreateLayer. -/
inductive ExtractResult where
  | errNoZip
  | errNoShp
  | errInvalidLayer
  | okLayer (layer : List Feature)
deriving DecidableEq

/-- Whether `name.lower().endswith(".shp")` holds: the last four characters
are '.', then 's', 'h', 'p' in either case. -/
def isShpName (name : String) : Bool :=
  match name.data.reverse with
  | p :: h :: s :: d :: _ =>
    (p == 'p' || p == 'P') && (h == 'h' || h == 'H') &&
      (s == 's' || s == 'S') && (d == '.')
  | _ => false

/-- Lines 152-158: the walk looking for a file whose lowercased name ends
in ".shp". -/
def hasShpEntry (files : List String) : Bool :=
  files.any isShpName

/-- _extractZipAndCreateLayer (lines 142-201). -/
def extractZipAndCreateLayer (env : ExtractEnv) : ExtractResult :=
  match env.zipChosen with
  | none => .errNoZip
  | some _ =>
    if hasShpEntry env.files then
      if env.layerValid then .okLayer (env.rawFeats.map importFeature)
      else .errInvalidLayer
    else .errNoShp

/-- Lexicographic code-point order on character lists, the order Python's
sorted() uses on strings. -/
def strLeChars : List Char → List Char → Bool
  | [], _ => true
  | _ :: _, [] => false
  | a :: as, b :: bs =>
    if a.toNat < b.toNat then true
    else if b.toNat < a.toNat then false
    else strLeChars as bs

/-- Lexicographic code-point order on strings. -/
def strLe (a b : String) : Bool :=
  strLeChars a.data b.data

/-- Insertion of a string into a sorted list, for the spec-side reading of
the merge rule. -/
def insertStr (a : String) : List String → List String
  | [] => [a]
  | b :: l => if strLe a b then a :: b :: l else b :: insertStr a l

/-- Insertion sort on strings. -/
def sortStrings : List String → List String
  | [] => []
  | a :: l => insertStr a (sortStrings l)

/-- Modelled from the spec: "concatenate sorted field names" — the merged
FIELD_NAME as the claim states it, joining the SORTED nonempty FIELD_NAME
values, for refinement comparison with the source computation. -/
def mergedFieldNameSpec (feats : List Feature) : String :=
  String.intercalate "-" (sortStrings (fieldNamesOf feats))

/-- The FIELD_NAME values of a list of features, for stating observations. -/
def fieldNameValues (l : List Feature) : List Value :=
  l.map (fun f => f.getAttr "FIELD_NAME")

/-- A feature carrying exactly the five working layer attributes. -/
def wfFeature (f : Feature) : Prop :=
  f.attrs.length = 5

/-- A layer all of whose features carry the five-attribute schema. -/
def wfLayer (l : List Feature) : Prop :=
  ∀ f ∈ l, wfFeature f

/-- The backup, when present, also carries the schema. -/
def wfBackup : Option (List Feature) → Prop
  | none => True
  | some b => wfLayer b

/-- The schema invariant on the dialog state. -/
def wfState (st : DialogState) : Prop :=
  wfLayer st.layer ∧ wfBackup st.lastMergeBackup

instance : DecidablePred wfFeature :=
  fun f => inferInstanceAs (Decidable (f.attrs.length = 5))

instance (l : List Feature) : Decidable (wfLayer l) :=
  inferInstanceAs (Decidable (∀ f ∈ l, wfFeature f))

instance (o : Option (List Feature)) : Decidable (wfBackup o) :=
  match o with
  | none => isTrue trivial
  | some b => inferInstanceAs (Decidable (wfLayer b))

instance (st : DialogState) : Decidable (wfState st) :=
  inferInstanceAs (Decidable (wfLayer st.layer ∧ wfBackup st.lastMergeBackup))

/-- A concrete single polygon geometry for witnesses. -/
def geomA : Geometry := ⟨true, false, 1⟩

/-- A second concrete single polygon geometry for witnesses. -/
def geomB : Geometry := ⟨true, false, 2⟩

/-- A concrete union primitive for witnesses: the union of two polygons is a
multi polygon. -/
def combineU (a b : Geometry) : Geometry :=
  ⟨a.wkbPolygon && b.wkbPolygon, true, a.payload + b.payload⟩

/-- A concrete feature with FIELD_NAME "b" in group g. -/
def featB : Feature :=
  ⟨[.str "c1", .str "f1", .str "b", .int 1, .str "g"], geomA⟩

/-- A concrete feature with FIELD_NAME "a" in group g. -/
def featA : Feature :=
  ⟨[.str "c1", .str "f1", .str "a", .int 1, .str "g"], geomB⟩

/-- A concrete feature in no group. -/
def featLoose : Feature :=
  ⟨[.str "c2", .str "f2", .str "z", .int 1, .str ""], geomA⟩

/-- The two-feature layer on which the spec's "sorted" reading fails. -/
def layerC1 : List Feature := [featB, featA]

/-- A three-feature layer: one mergeable group plus one loose feature. -/
def layer0 : List Feature := [featB, featA, featLoose]

/-- A concrete export environment where every dialog succeeds and the .prj
side file is missing. -/
def env0 : ExportEnv :=
  ⟨some "out.shp", true, fun c f => some (c, f), some "out.zip", fun e => decide (e ≠ ".prj")⟩

/-- A concrete export environment where the metadata dialog is cancelled. -/
def envCancel : ExportEnv :=
  ⟨some "out.shp", true, fun _ _ => none, some "out.zip", fun _ => true⟩

/-- A concrete export environment where the shapefile save dialog is
cancelled. -/
def envNoPath : ExportEnv :=
  ⟨none, true, fun _ _ => none, none, fun _ => true⟩

/-- A concrete export environment where the vector writer fails. -/
def envBadWrite : ExportEnv :=
  ⟨some "out.shp", false, fun _ _ => none, none, fun _ => true⟩

/-- A concrete extraction environment whose ZIP holds no shapefile. -/
def extractNoShp : ExtractEnv :=
  ⟨some "in.zip", ["a.dbf", "b.txt"], true, []⟩

/-- A concrete extraction environment whose extracted layer is invalid. -/
def extractBad : ExtractEnv :=
  ⟨some "in.zip", ["a.shp"], false, []⟩

/-- The head surviving dropWhile fails the predicate. -/
theorem head?_dropWhile_bool {α : Type} (p : α → Bool) (l : List α) :
    ∀ a, (l.dropWhile p).head? = some a → p a = false := by
  induction l with
  | nil => intro a h; simp [List.dropWhile] at h
  | cons b l ih =>
    intro a h
    rw [List.dropWhile_cons] at h
    by_cases hb : p b
    · rw [if_pos hb] at h; exact ih a h
    · rw [if_neg hb] at h
      rw [List.head?_cons, Option.some.injEq] at h
      rw [← h]
      exact Bool.not_eq_true (p b) |>.mp hb

/-- dropWhile is the identity when the head already fails the predicate. -/
theorem dropWhile_eq_self_of_head {α : Type} (p : α → Bool) (l : List α)
    (h : ∀ a, l.head? = some a → p a = false) : l.dropWhile p = l := by
  cases l with
  | nil => rfl
  | cons b l =>
    rw [List.dropWhile_cons, if_neg]
    rw [h b rfl]
    exact Bool.false_ne_true

/-- dropWhile is idempotent. -/
theorem dropWhile_idem {α : Type} (p : α → Bool) (l : List α) :
    (l.dropWhile p).dropWhile p = l.dropWhile p :=
  dropWhile_eq_self_of_head p _ (head?_dropWhile_bool p l)

/-- A nonempty dropWhile result keeps the last element of the input. -/
theorem getLast?_dropWhile {α : Type} (p : α → Bool) (l : List α)
    (h : l.dropWhile p ≠ []) : (l.dropWhile p).getLast? = l.getLast? := by
  induction l with
  | nil => simp [List.dropWhile] at h
  | cons b l ih =>
    rw [List.dropWhile_cons]
    by_cases hb : p b
    · rw [if_pos hb]
      rw [List.dropWhile_cons, if_pos hb] at h
      rw [ih h]
      cases l with
      | nil => simp [List.dropWhile] at h
      | cons c l' => rw [List.getLast?_cons_cons]
    · rw [if_neg hb]

/-- stripChars fixes lists whose two dropWhile passes are the identity. -/
theorem stripChars_of_fixed (l : List Char)
    (h1 : l.dropWhile Char.isWhitespace = l)
    (h2 : l.reverse.dropWhile Char.isWhitespace = l.reverse) :
    stripChars l = l := by
  unfold stripChars
  rw [h1, h2, List.reverse_reverse]

/-- stripChars is idempotent. -/
theorem stripChars_idem (l : List Char) : stripChars (stripChars l) = stripChars l := by
  apply stripChars_of_fixed
  · apply dropWhile_eq_self_of_head
    intro a ha
    unfold stripChars at ha
    rw [List.head?_reverse] at ha
    have hne : ((l.dropWhile Char.isWhitespace).reverse.dropWhile Char.isWhitespace) ≠ [] := by
      intro e; rw [e] at ha; simp at ha
    rw [getLast?_dropWhile _ _ hne, List.getLast?_reverse] at ha
    exact head?_dropWhile_bool _ _ a ha
  · unfold stripChars
    rw [List.reverse_reverse]
    exact dropWhile_idem _ _

/-- pyStrip is idempotent, like Python's str.strip(). -/
theorem pyStrip_idem (s : String) : pyStrip (pyStrip s) = pyStrip s :=
  congrArg String.mk (stripChars_idem s.data)

/-- Members of dedupFirstAux come from the input list. -/
theorem mem_of_mem_dedupFirstAux (seen l : List String) (x : String)
    (hx : x ∈ dedupFirstAux seen l) : x ∈ l := by
  induction l generalizing seen with
  | nil => simp [dedupFirstAux] at hx
  | cons a l ih =>
    simp only [dedupFirstAux] at hx
    by_cases h : a ∈ seen
    · rw [if_pos h] at hx
      exact List.mem_cons_of_mem a (ih seen hx)
    · rw [if_neg h] at hx
      rcases List.mem_cons.mp hx with h1 | h1
      · rw [h1]; exact List.mem_cons_self a l
      · exact List.mem_cons_of_mem a (ih _ h1)

/-- Members of dedupFirstAux avoid the seen accumulator. -/
theorem not_mem_seen_dedupFirstAux (seen l : List String) (x : String)
    (hx : x ∈ dedupFirstAux seen l) : x ∉ seen := by
  induction l generalizing seen with
  | nil => simp [dedupFirstAux] at hx
  | cons a l ih =>
    simp only [dedupFirstAux] at hx
    by_cases h : a ∈ seen
    · rw [if_pos h] at hx; exact ih seen hx
    · rw [if_neg h] at hx
      rcases List.mem_cons.mp hx with h1 | h1
      · rw [h1]; exact h
      · intro hs
        exact ih (a :: seen) h1 (List.mem_cons_of_mem a hs)

/-- dedupFirstAux has no duplicates. -/
theorem nodup_dedupFirstAux (seen l : List String) : (dedupFirstAux seen l).Nodup := by
  induction l generalizing seen with
  | nil => simp [dedupFirstAux]
  | cons a l ih =>
    simp only [dedupFirstAux]
    by_cases h : a ∈ seen
    · rw [if_pos h]; exact ih seen
    · rw [if_neg h]
      rw [List.nodup_cons]
      constructor
      · intro hmem
        exact not_mem_seen_dedupFirstAux _ _ _ hmem (List.mem_cons_self a seen)
      · exact ih (a :: seen)

/-- Every group key is a fixed point of pyStrip. -/
theorem pyStrip_groupKey (layer : List Feature) (g : String)
    (h : g ∈ groupKeys layer) : pyStrip g = g := by
  have h1 := mem_of_mem_dedupFirstAux _ _ _ h
  rcases List.mem_map.mp (List.mem_filter.mp h1).1 with ⟨f, _, hf⟩
  rw [← hf]
  exact pyStrip_idem _

/-- The group keys are distinct. -/
theorem nodup_groupKeys (layer : List Feature) : (groupKeys layer).Nodup :=
  nodup_dedupFirstAux _ _

/-- No group key is the empty string. -/
theorem ne_empty_of_mem_groupKeys (layer : List Feature) (g : String)
    (h : g ∈ groupKeys layer) : g ≠ "" := by
  have h1 := mem_of_mem_dedupFirstAux _ _ _ h
  exact of_decide_eq_true (List.mem_filter.mp h1).2

/-- A list of length at least two starts with two elements. -/
theorem exists_two_of_le_length {α : Type} (l : List α) (h : 2 ≤ l.length) :
    ∃ a b t, l = a :: b :: t := by
  cases l with
  | nil => simp at h
  | cons a l' =>
    cases l' with
    | nil => simp at h
    | cons b t => exact ⟨a, b, t, rfl⟩

/-- A list of length five lists its elements. -/
theorem list_eq_five {α : Type} (l : List α) (h : l.length = 5) :
    ∃ a b c d e, l = [a, b, c, d, e] := by
  cases l with
  | nil => simp at h
  | cons a l1 =>
    cases l1 with
    | nil => simp at h
    | cons b l2 =>
      cases l2 with
      | nil => simp at h
      | cons c l3 =>
        cases l3 with
        | nil => simp at h
        | cons d l4 =>
          cases l4 with
          | nil => simp at h
          | cons e l5 =>
            cases l5 with
            | nil => exact ⟨a, b, c, d, e, rfl⟩
            | cons x l6 => simp at h

/-- Reading CLIENT_NAME from an explicit five-attribute feature. -/
theorem getAttr_client5 (a b c d e : Value) (g : Geometry) :
    Feature.getAttr ⟨[a, b, c, d, e], g⟩ "CLIENT_NAME" = a := rfl

/-- Reading FARM_NAME from an explicit five-attribute feature. -/
theorem getAttr_farm5 (a b c d e : Value) (g : Geometry) :
    Feature.getAttr ⟨[a, b, c, d, e], g⟩ "FARM_NAME" = b := rfl

/-- Reading FIELD_NAME from an explicit five-attribute feature. -/
theorem getAttr_fieldName5 (a b c d e : Value) (g : Geometry) :
    Feature.getAttr ⟨[a, b, c, d, e], g⟩ "FIELD_NAME" = c := rfl

/-- Reading POLYGONTYP from an explicit five-attribute feature. -/
theorem getAttr_ptype5 (a b c d e : Value) (g : Geometry) :
    Feature.getAttr ⟨[a, b, c, d, e], g⟩ "POLYGONTYP" = d := rfl

/-- Reading GROUPE from an explicit five-attribute feature. -/
theorem getAttr_groupe5 (a b c d e : Value) (g : Geometry) :
    Feature.getAttr ⟨[a, b, c, d, e], g⟩ "GROUPE" = e := rfl

/-- The merged feature of a group of at least two features, spelled out. -/
theorem mergedFeature_of_eq (combine : Geometry → Geometry → Geometry)
    (layer : List Feature) (g : String) (f0 f1 : Feature) (rest : List Feature)
    (h : groupFeats layer g = f0 :: f1 :: rest) :
    mergedFeature combine layer g =
      ⟨[f0.getAttr "CLIENT_NAME", f0.getAttr "FARM_NAME",
        .str (String.intercalate "-" (fieldNamesOf (f0 :: f1 :: rest))),
        .int (polyType (groupUnion combine (f0 :: f1 :: rest))),
        .str g], groupUnion combine (f0 :: f1 :: rest)⟩ := by
  unfold mergedFeature
  rw [h]

/-- The merged feature of a merged group carries its group key. -/
theorem strippedGroup_mergedFeature (combine : Geometry → Geometry → Geometry)
    (layer : List Feature) (g : String)
    (h2 : 2 ≤ (groupFeats layer g).length) (hg : pyStrip g = g) :
    strippedGroup (mergedFeature combine layer g) = g := by
  obtain ⟨f0, f1, rest, hl⟩ := exists_two_of_le_length _ h2
  rw [mergedFeature_of_eq combine layer g f0 f1 rest hl]
  unfold strippedGroup
  rw [getAttr_groupe5]
  exact hg

/-- The merged feature of a merged group carries the five-attribute schema. -/
theorem wfFeature_mergedFeature (combine : Geometry → Geometry → Geometry)
    (layer : List Feature) (g : String) (h2 : 2 ≤ (groupFeats layer g).length) :
    wfFeature (mergedFeature combine layer g) := by
  obtain ⟨f0, f1, rest, hl⟩ := exists_two_of_le_length _ h2
  rw [mergedFeature_of_eq combine layer g f0 f1 rest hl]
  rfl

/-- Invariant of the merge loop: after processing a list of distinct keys, the
layer consists of the original features whose group is not among the processed
big keys, followed by the merged features of the processed big keys. -/
theorem foldl_mergeStep_eq (combine : Geometry → Geometry → Geometry) (orig : List Feature) :
    ∀ (ks done : List String),
      (∀ g ∈ done, pyStrip g = g ∧ isBig orig g = true) →
      (∀ g ∈ ks, pyStrip g = g) →
      (done ++ ks).Nodup →
      List.foldl (mergeStep combine orig)
        (orig.filter (fun f => decide (strippedGroup f ∉ done)) ++
          done.map (mergedFeature combine orig)) ks
      = orig.filter (fun f => decide (strippedGroup f ∉ done ++ ks.filter (isBig orig))) ++
        (done ++ ks.filter (isBig orig)).map (mergedFeature combine orig) := by
  intro ks
  induction ks with
  | nil =>
    intro done h1 h2 h3
    simp
  | cons g ks ih =>
    intro done h1 h2 h3
    rw [List.foldl_cons]
    by_cases hbig : 2 ≤ (groupFeats orig g).length
    · have hstep : mergeStep combine orig
          (orig.filter (fun f => decide (strippedGroup f ∉ done)) ++
            done.map (mergedFeature combine orig)) g
          = (orig.filter (fun f => decide (strippedGroup f ∉ done)) ++
              done.map (mergedFeature combine orig)).filter
                (fun f => decide (strippedGroup f ≠ g)) ++
            [mergedFeature combine orig g] := by
        unfold mergeStep
        rw [if_neg (Nat.not_lt.mpr hbig)]
      rw [hstep]
      have hconv : (orig.filter (fun f => decide (strippedGroup f ∉ done))).filter
            (fun f => decide (strippedGroup f ≠ g))
          = orig.filter (fun f => decide (strippedGroup f ∉ done ++ [g])) := by
        rw [List.filter_filter]
        apply List.filter_congr
        intro x _
        rw [← Bool.decide_and]
        rw [decide_eq_decide]
        simp [List.mem_append, not_or]
        exact And.comm
      have hmap : (done.map (mergedFeature combine orig)).filter
            (fun f => decide (strippedGroup f ≠ g))
          = done.map (mergedFeature combine orig) := by
        rw [List.filter_eq_self]
        intro x hx
        rcases List.mem_map.mp hx with ⟨g', hg', he⟩
        rw [← he]
        have hp := h1 g' hg'
        rw [strippedGroup_mergedFeature combine orig g' (of_decide_eq_true hp.2) hp.1]
        have hdisj := (List.nodup_append.mp h3).2.2
        exact decide_eq_true (fun e => hdisj hg' (e ▸ List.mem_cons_self g ks))
      rw [List.filter_append, hconv, hmap, List.append_assoc]
      rw [show [mergedFeature combine orig g]
            = List.map (mergedFeature combine orig) [g] from rfl]
      rw [← List.map_append]
      have h1' : ∀ g' ∈ done ++ [g], pyStrip g' = g' ∧ isBig orig g' = true := by
        intro x hx
        rcases List.mem_append.mp hx with hm | hm
        · exact h1 x hm
        · rw [List.mem_singleton] at hm
          rw [hm]
          exact ⟨h2 g (List.mem_cons_self g ks), decide_eq_true hbig⟩
      have h2' : ∀ x ∈ ks, pyStrip x = x :=
        fun x hx => h2 x (List.mem_cons_of_mem g hx)
      have h3' : ((done ++ [g]) ++ ks).Nodup := by
        rw [List.append_assoc, List.singleton_append]
        exact h3
      rw [ih (done ++ [g]) h1' h2' h3']
      have hfil : (g :: ks).filter (isBig orig) = g :: ks.filter (isBig orig) := by
        rw [List.filter_cons, if_pos (show isBig orig g = true from decide_eq_true hbig)]
      rw [hfil]
      rw [show done ++ g :: ks.filter (isBig orig)
            = (done ++ [g]) ++ ks.filter (isBig orig) by
        rw [List.append_assoc, List.singleton_append]]
    · have hstep : mergeStep combine orig
          (orig.filter (fun f => decide (strippedGroup f ∉ done)) ++
            done.map (mergedFeature combine orig)) g
          = orig.filter (fun f => decide (strippedGroup f ∉ done)) ++
            done.map (mergedFeature combine orig) := by
        unfold mergeStep
        rw [if_pos (Nat.not_le.mp hbig)]
      rw [hstep]
      have hfil : (g :: ks).filter (isBig orig) = ks.filter (isBig orig) := by
        rw [List.filter_cons, if_neg]
        intro e
        exact hbig (of_decide_eq_true e)
      rw [hfil]
      apply ih done h1 (fun x hx => h2 x (List.mem_cons_of_mem g hx))
      exact List.Nodup.sublist
        (List.Sublist.append_left (List.sublist_cons_self g ks) done) h3

/-- mergeGroups leaves exactly the features of untouched groups, in layer
order, and appends one merged feature per big group, in first-occurrence
order: the loop of lines 456-486 as one equation. -/
theorem mergeGroups_eq (combine : Geometry → Geometry → Geometry) (layer : List Feature) :
    mergeGroups combine layer =
      layer.filter (fun f => decide (strippedGroup f ∉ bigKeys layer)) ++
      (bigKeys layer).map (mergedFeature combine layer) := by
  have h0 : layer.filter (fun f => decide (strippedGroup f ∉ ([] : List String))) ++
      ([] : List String).map (mergedFeature combine layer) = layer := by
    simp
  have h := foldl_mergeStep_eq combine layer (groupKeys layer) []
    (by intro g hg; simp at hg)
    (pyStrip_groupKey layer)
    (by simpa using nodup_groupKeys layer)
  rw [h0] at h
  simp only [List.nil_append] at h
  unfold mergeGroups bigKeys
  exact h

/-- clone_feature copies a feature verbatim, so mapping it is the identity. -/
theorem map_clone_feature (l : List Feature) : l.map clone_feature = l := by
  have h : clone_feature = id := funext (fun f => rfl)
  rw [h, List.map_id]

/-- setAttr keeps the attribute count. -/
theorem length_setAttr (f : Feature) (n : String) (v : Value) :
    (f.setAttr n v).attrs.length = f.attrs.length := by
  unfold Feature.setAttr
  cases fieldIndex n with
  | none => rfl
  | some i => exact List.length_set f.attrs i v

/-- Writing a table row back keeps the schema. -/
theorem wfFeature_applyRow (f : Feature) (r : Row) (h : wfFeature f) :
    wfFeature (applyRow f r) := by
  unfold wfFeature at h ⊢
  unfold applyRow
  rw [length_setAttr, length_setAttr, length_setAttr, length_setAttr]
  exact h

/-- saveEdits keeps the schema. -/
theorem wfLayer_saveEdits : ∀ (l : List Feature) (rows : List Row),
    wfLayer l → wfLayer (saveEdits l rows) := by
  intro l
  induction l with
  | nil => intro rows _ f hf; simp [saveEdits] at hf
  | cons f0 fs ih =>
    intro rows h
    cases rows with
    | nil => simpa [saveEdits] using h
    | cons r rs =>
      intro x hx
      simp only [saveEdits] at hx
      rcases List.mem_cons.mp hx with h1 | h1
      · rw [h1]
        exact wfFeature_applyRow _ _ (h f0 (List.mem_cons_self _ _))
      · exact ih rs (fun f hf => h f (List.mem_cons_of_mem _ hf)) x h1

/-- assignGroup keeps the schema. -/
theorem wfLayer_assignGroup (g : String) (sel : List Nat) (rows : List Row)
    (l : List Feature) (h : wfLayer l) : wfLayer (assignGroupOp g sel rows l) := by
  unfold assignGroupOp
  split
  · exact h
  · split
    · exact h
    · exact wfLayer_saveEdits _ _ h

/-- Clearing the GROUPE attribute keeps the schema. -/
theorem wfLayer_clearGroup (l : List Feature) (h : wfLayer l) :
    wfLayer (clearGroupBeforeTerminate l) := by
  intro x hx
  rcases List.mem_map.mp hx with ⟨f, hf, he⟩
  rw [← he]
  unfold wfFeature
  rw [length_setAttr]
  exact h f hf

/-- mergeGroups keeps the schema. -/
theorem wfLayer_mergeGroups (combine : Geometry → Geometry → Geometry)
    (l : List Feature) (h : wfLayer l) : wfLayer (mergeGroups combine l) := by
  rw [mergeGroups_eq]
  intro x hx
  rcases List.mem_append.mp hx with h1 | h1
  · exact h x (List.mem_filter.mp h1).1
  · rcases List.mem_map.mp h1 with ⟨g, hg, he⟩
    rw [← he]
    exact wfFeature_mergedFeature combine l g
      (of_decide_eq_true (List.mem_filter.mp hg).2)

/-- On a five-attribute feature, clearing GROUPE makes it read back empty. -/
theorem getAttr_groupe_setAttr (f : Feature) (h : f.attrs.length = 5) :
    (f.setAttr "GROUPE" (.str "")).getAttr "GROUPE" = .str "" := by
  obtain ⟨a, b, c, d, e, he⟩ := list_eq_five f.attrs h
  unfold Feature.setAttr Feature.getAttr
  simp only [show fieldIndex "GROUPE" = some 4 from rfl]
  rw [he]
  rfl

/-- The merged feature of every big key is in the merge output. -/
theorem mergedFeature_mem (combine : Geometry → Geometry → Geometry)
    (layer : List Feature) (g : String) (h : g ∈ bigKeys layer) :
    mergedFeature combine layer g ∈ mergeGroups combine layer := by
  rw [mergeGroups_eq]
  exact List.mem_append_right _ (List.mem_map_of_mem _ h)

/-- C1 counterexample: on a group whose FIELD_NAME values are "b" then "a",
the merged FIELD_NAME is "b-a", the values in layer order, while the
concatenation of the SORTED values the claim demands would be "a-b". The
merge loop does not sort. -/
theorem C1_counterexample :
    fieldNameValues (mergeGroups combineU layerC1) = [Value.str "b-a"] ∧
    mergedFieldNameSpec (groupFeats layerC1 "g") = "a-b" ∧
    Value.str "b-a" ≠ Value.str "a-b" := by
  decide

/-- C1 (amended): for every merge of a group with at least two features, the
merged feature's FIELD_NAME equals the concatenation (joined with '-') of
the non-empty FIELD_NAME values of the group's features in the order the
features occur in the layer, without sorting. -/
theorem C1_merged_field_name_unsorted (combine : Geometry → Geometry → Geometry)
    (layer : List Feature) (g : String) (h : g ∈ bigKeys layer) :
    (mergedFeature combine layer g).getAttr "FIELD_NAME" =
      .str (String.intercalate "-" (fieldNamesOf (groupFeats layer g))) ∧
    mergedFeature combine layer g ∈ mergeGroups combine layer := by
  have h2 : 2 ≤ (groupFeats layer g).length :=
    of_decide_eq_true (List.mem_filter.mp h).2
  obtain ⟨f0, f1, rest, hl⟩ := exists_two_of_le_length _ h2
  constructor
  · rw [mergedFeature_of_eq combine layer g f0 f1 rest hl, hl, getAttr_fieldName5]
  · exact mergedFeature_mem combine layer g h

/-- Witness for C1: on the concrete two-feature layer, the merged FIELD_NAME
is the unsorted join "b-a". -/
theorem C1_witness :
    (mergedFeature combineU layerC1 "g").getAttr "FIELD_NAME" =
      .str (String.intercalate "-" (fieldNamesOf (groupFeats layerC1 "g"))) ∧
    mergedFeature combineU layerC1 "g" ∈ mergeGroups combineU layerC1 :=
  C1_merged_field_name_unsorted combineU layerC1 "g" (by decide)

/-- C2: for every layer state, the merge operation snapshots all features
right before merging (after the saveEdits it performs first), and a
confirmed undo restores exactly that collection and clears the backup, so
undo is single-level. -/
theorem C2_merge_backup_undo (combine : Geometry → Geometry → Geometry)
    (rows : List Row) (st : DialogState) :
    (applyOp (.merge combine rows) st).lastMergeBackup =
      some (saveEdits st.layer rows) ∧
    applyOp (.undo true) (applyOp (.merge combine rows) st) =
      ⟨saveEdits st.layer rows, none⟩ := by
  constructor
  · show some ((saveEdits st.layer rows).map clone_feature) = _
    rw [map_clone_feature]
  · show (⟨(saveEdits st.layer rows).map clone_feature, none⟩ : DialogState) = _
    rw [map_clone_feature]

/-- C3: for every merged group, the merged feature carries the unioned
geometry, and its POLYGONTYP is recomputed from that union: 2 when the
union is a multi polygon, 1 when it is a single polygon, 0 when it is not a
polygon geometry. -/
theorem C3_polygontype_recomputed (combine : Geometry → Geometry → Geometry)
    (layer : List Feature) (g : String) (h : g ∈ bigKeys layer) :
    (mergedFeature combine layer g).geom = groupUnion combine (groupFeats layer g) ∧
    ((groupUnion combine (groupFeats layer g)).wkbPolygon = true →
      (groupUnion combine (groupFeats layer g)).wkbMulti = true →
      (mergedFeature combine layer g).getAttr "POLYGONTYP" = .int 2) ∧
    ((groupUnion combine (groupFeats layer g)).wkbPolygon = true →
      (groupUnion combine (groupFeats layer g)).wkbMulti = false →
      (mergedFeature combine layer g).getAttr "POLYGONTYP" = .int 1) ∧
    ((groupUnion combine (groupFeats layer g)).wkbPolygon = false →
      (mergedFeature combine layer g).getAttr "POLYGONTYP" = .int 0) ∧
    mergedFeature combine layer g ∈ mergeGroups combine layer := by
  have h2 : 2 ≤ (groupFeats layer g).length :=
    of_decide_eq_true (List.mem_filter.mp h).2
  obtain ⟨f0, f1, rest, hl⟩ := exists_two_of_le_length _ h2
  have heq := mergedFeature_of_eq combine layer g f0 f1 rest hl
  refine ⟨?_, ?_, ?_, ?_, mergedFeature_mem combine layer g h⟩
  · rw [heq, hl]
  · intro hp hm
    rw [hl] at hp hm
    rw [heq, getAttr_ptype5]
    unfold polyType
    rw [if_pos hp, if_pos hm]
  · intro hp hm
    rw [hl] at hp hm
    rw [heq, getAttr_ptype5]
    unfold polyType
    rw [if_pos hp, if_neg (by rw [hm]; exact Bool.false_ne_true)]
  · intro hp
    rw [hl] at hp
    rw [heq, getAttr_ptype5]
    unfold polyType
    rw [if_neg (by rw [hp]; exact Bool.false_ne_true)]

/-- Witness for C3: on the concrete layer the union of two polygons is a
multi polygon and the merged POLYGONTYP is 2. -/
theorem C3_witness :
    (mergedFeature combineU layer0 "g").geom = groupUnion combineU (groupFeats layer0 "g") ∧
    ((groupUnion combineU (groupFeats layer0 "g")).wkbPolygon = true →
      (groupUnion combineU (groupFeats layer0 "g")).wkbMulti = true →
      (mergedFeature combineU layer0 "g").getAttr "POLYGONTYP" = .int 2) ∧
    ((groupUnion combineU (groupFeats layer0 "g")).wkbPolygon = true →
      (groupUnion combineU (groupFeats layer0 "g")).wkbMulti = false →
      (mergedFeature combineU layer0 "g").getAttr "POLYGONTYP" = .int 1) ∧
    ((groupUnion combineU (groupFeats layer0 "g")).wkbPolygon = false →
      (mergedFeature combineU layer0 "g").getAttr "POLYGONTYP" = .int 0) ∧
    mergedFeature combineU layer0 "g" ∈ mergeGroups combineU layer0 :=
  C3_polygontype_recomputed combineU layer0 "g" (by decide)

/-- C4: for every merged group, the merged feature's CLIENT_NAME and
FARM_NAME come from the first feature of the group, its GROUPE is the group
tag, and that tag is shared by all the group's features. -/
theorem C4_client_farm_groupe (combine : Geometry → Geometry → Geometry)
    (layer : List Feature) (g : String) (f0 : Feature) (rest : List Feature)
    (h : g ∈ bigKeys layer) (h0 : groupFeats layer g = f0 :: rest) :
    (mergedFeature combine layer g).getAttr "CLIENT_NAME" = f0.getAttr "CLIENT_NAME" ∧
    (mergedFeature combine layer g).getAttr "FARM_NAME" = f0.getAttr "FARM_NAME" ∧
    (mergedFeature combine layer g).getAttr "GROUPE" = .str g ∧
    (∀ f ∈ groupFeats layer g, strippedGroup f = g) ∧
    mergedFeature combine layer g ∈ mergeGroups combine layer := by
  have h2 : 2 ≤ (groupFeats layer g).length :=
    of_decide_eq_true (List.mem_filter.mp h).2
  cases rest with
  | nil => rw [h0] at h2; simp at h2
  | cons f1 rest' =>
    have heq := mergedFeature_of_eq combine layer g f0 f1 rest' h0
    refine ⟨?_, ?_, ?_, ?_, mergedFeature_mem combine layer g h⟩
    · rw [heq, getAttr_client5]
    · rw [heq, getAttr_farm5]
    · rw [heq, getAttr_groupe5]
    · intro f hf
      exact of_decide_eq_true (List.mem_filter.mp hf).2

/-- Witness for C4 on the concrete three-feature layer. -/
theorem C4_witness :
    (mergedFeature combineU layer0 "g").getAttr "CLIENT_NAME" = featB.getAttr "CLIENT_NAME" ∧
    (mergedFeature combineU layer0 "g").getAttr "FARM_NAME" = featB.getAttr "FARM_NAME" ∧
    (mergedFeature combineU layer0 "g").getAttr "GROUPE" = .str "g" ∧
    (∀ f ∈ groupFeats layer0 "g", strippedGroup f = "g") ∧
    mergedFeature combineU layer0 "g" ∈ mergeGroups combineU layer0 :=
  C4_client_farm_groupe combineU layer0 "g" featB [featA] (by decide) (by decide)

/-- C5: for every export in which all dialogs return a path and the
shapefile write succeeds, the metadata JSON carries exactly the four keys
Version, ClientName, FarmName, ShapeDataType, and the ZIP holds the
shapefile side files that exist together with that JSON file. -/
theorem C5_export_outputs (layer : List Feature) (env : ExportEnv) (p z : String)
    (h1 : env.shpPath = some p) (h2 : env.writeOk = true) (h3 : env.zipPath = some z) :
    ∃ gc gf, exportData layer env = .ok (metadataJson gc gf) (some (zipEntriesOf env)) ∧
      (metadataJson gc gf).map Prod.fst =
        ["Version", "ClientName", "FarmName", "ShapeDataType"] := by
  have hz : zipOpt env = some (zipEntriesOf env) := by
    unfold zipOpt
    rw [h3]
  unfold exportData
  rw [h1]
  rw [if_pos h2]
  cases hm : env.metaDialog (defaultClient layer) (defaultFarm layer) with
  | some cf => exact ⟨cf.1, cf.2, by rw [hz], rfl⟩
  | none => exact ⟨"--", "--", by rw [hz], rfl⟩

/-- Witness for C5 on a concrete layer and environment missing its .prj. -/
theorem C5_witness :
    ∃ gc gf, exportData layer0 env0 = .ok (metadataJson gc gf) (some (zipEntriesOf env0)) ∧
      (metadataJson gc gf).map Prod.fst =
        ["Version", "ClientName", "FarmName", "ShapeDataType"] :=
  C5_export_outputs layer0 env0 "out.shp" "out.zip" rfl rfl rfl

/-- C6: each failure is a synchronous terminal outcome: a ZIP without a .shp
or an invalid extracted layer stops extraction with an error and no working
layer; a cancelled save dialog or a failed shapefile write stops exportData
before the metadata JSON or the ZIP is produced. -/
theorem C6_error_paths :
    (∀ (env : ExtractEnv) (p : String), env.zipChosen = some p →
      hasShpEntry env.files = false → extractZipAndCreateLayer env = .errNoShp) ∧
    (∀ (env : ExtractEnv) (p : String), env.zipChosen = some p →
      hasShpEntry env.files = true → env.layerValid = false →
      extractZipAndCreateLayer env = .errInvalidLayer) ∧
    (∀ (layer : List Feature) (env : ExportEnv), env.shpPath = none →
      exportData layer env = .errNoShpPath) ∧
    (∀ (layer : List Feature) (env : ExportEnv) (p : String), env.shpPath = some p →
      env.writeOk = false → exportData layer env = .errWriteFailed) := by
  refine ⟨?_, ?_, ?_, ?_⟩
  · intro env p hz hs
    unfold extractZipAndCreateLayer
    rw [hz]
    rw [if_neg (by rw [hs]; exact Bool.false_ne_true)]
  · intro env p hz hs hv
    unfold extractZipAndCreateLayer
    rw [hz, if_pos hs, if_neg (by rw [hv]; exact Bool.false_ne_true)]
  · intro layer env h
    unfold exportData
    rw [h]
  · intro layer env p h1 h2
    unfold exportData
    rw [h1, if_neg (by rw [h2]; exact Bool.false_ne_true)]

/-- Witness for C6 at concrete failing environments. -/
theorem C6_witness :
    extractZipAndCreateLayer extractNoShp = .errNoShp ∧
    extractZipAndCreateLayer extractBad = .errInvalidLayer ∧
    exportData layer0 envNoPath = .errNoShpPath ∧
    exportData layer0 envBadWrite = .errWriteFailed :=
  ⟨C6_error_paths.1 extractNoShp "in.zip" rfl (by decide),
   C6_error_paths.2.1 extractBad "in.zip" rfl (by decide) rfl,
   C6_error_paths.2.2.1 layer0 envNoPath rfl,
   C6_error_paths.2.2.2 layer0 envBadWrite "out.shp" rfl rfl⟩

/-- C7: every imported feature carries exactly the five working layer
attributes and one geometry, and every editing operation (save edits, apply
global values, assign group, merge, undo merge, clear group) preserves that
schema on both the layer and the merge backup. -/
theorem C7_schema_invariant :
    (∀ raws : List RawFeature, wfLayer (raws.map importFeature)) ∧
    (∀ (op : Op) (st : DialogState), wfState st → wfState (applyOp op st)) := by
  constructor
  · intro raws f hf
    rcases List.mem_map.mp hf with ⟨raw, _, he⟩
    rw [← he]
    rfl
  · intro op st h
    cases op with
    | save rows => exact ⟨wfLayer_saveEdits _ rows h.1, h.2⟩
    | applyGlobal gc gf sel rows => exact ⟨wfLayer_saveEdits _ _ h.1, h.2⟩
    | assignGrp g sel rows => exact ⟨wfLayer_assignGroup g sel rows _ h.1, h.2⟩
    | merge combine rows =>
      refine ⟨wfLayer_mergeGroups _ _ (wfLayer_saveEdits _ _ h.1), ?_⟩
      show wfLayer ((saveEdits st.layer rows).map clone_feature)
      rw [map_clone_feature]
      exact wfLayer_saveEdits _ _ h.1
    | undo confirmed =>
      cases hb : st.lastMergeBackup with
      | none => simpa [applyOp, hb] using h
      | some b =>
        have hwb : wfLayer b := by
          have := h.2
          rw [hb] at this
          exact this
        cases confirmed with
        | false => simpa [applyOp, hb] using h
        | true =>
          simp only [applyOp, hb, if_pos]
          exact ⟨hwb, trivial⟩
    | clearGrp => exact ⟨wfLayer_clearGroup _ h.1, h.2⟩

/-- Witness for C7: a concrete import and a concrete merge keep the schema. -/
theorem C7_witness :
    wfLayer ([(⟨some (Value.str "p1"), geomA⟩ : RawFeature)].map importFeature) ∧
    wfState (applyOp (Op.merge combineU []) ⟨layer0, none⟩) :=
  ⟨C7_schema_invariant.1 [⟨some (Value.str "p1"), geomA⟩],
   C7_schema_invariant.2 (Op.merge combineU []) ⟨layer0, none⟩ (by decide)⟩

/-- C8: terminateAndClearGroup clears the GROUPE attribute of every feature
first, and only then exports, so the exported layer carries no group tag. -/
theorem C8_group_cleared_before_export (layer : List Feature) (env : ExportEnv)
    (hwf : wfLayer layer) :
    (∀ f ∈ (terminateAndClearGroup layer env).1, f.getAttr "GROUPE" = .str "") ∧
    (terminateAndClearGroup layer env).2 =
      exportData (clearGroupBeforeTerminate layer) env := by
  constructor
  · intro f hf
    have hf' : f ∈ clearGroupBeforeTerminate layer := hf
    rcases List.mem_map.mp hf' with ⟨f0, hf0, he⟩
    rw [← he]
    exact getAttr_groupe_setAttr f0 (hwf f0 hf0)
  · rfl

/-- Witness for C8 on the concrete layer, whose group tags disappear. -/
theorem C8_witness :
    (∀ f ∈ (terminateAndClearGroup layer0 env0).1, f.getAttr "GROUPE" = .str "") ∧
    (terminateAndClearGroup layer0 env0).2 =
      exportData (clearGroupBeforeTerminate layer0) env0 :=
  C8_group_cleared_before_export layer0 env0 (by decide)

/-- C9: mergeGroups leaves every feature whose group tag is empty after
stripping, or whose group holds fewer than two features, with exactly the
same occurrences in the layer; and the whole result is the untouched
features followed by one merged feature per group of two or more. -/
theorem C9_merge_frame (combine : Geometry → Geometry → Geometry)
    (layer : List Feature) (f : Feature) (hf : f ∈ layer)
    (h : strippedGroup f = "" ∨ (groupFeats layer (strippedGroup f)).length < 2) :
    List.count f (mergeGroups combine layer) = List.count f layer ∧
    mergeGroups combine layer =
      layer.filter (fun x => decide (strippedGroup x ∉ bigKeys layer)) ++
      (bigKeys layer).map (mergedFeature combine layer) := by
  have hnb : strippedGroup f ∉ bigKeys layer := by
    intro hmem
    have h2 := List.mem_filter.mp hmem
    rcases h with he | hs
    · exact ne_empty_of_mem_groupKeys layer _ h2.1 he
    · exact Nat.not_le.mpr hs (of_decide_eq_true h2.2)
  constructor
  · rw [mergeGroups_eq, List.count_append]
    have hc1 : List.count f
        (layer.filter (fun x => decide (strippedGroup x ∉ bigKeys layer))) =
        List.count f layer :=
      List.count_filter (decide_eq_true hnb)
    have hc2 : List.count f ((bigKeys layer).map (mergedFeature combine layer)) = 0 := by
      rw [List.count_eq_zero]
      intro hmem
      rcases List.mem_map.mp hmem with ⟨g, hg, he⟩
      have hkeys := List.mem_filter.mp hg
      have hsg : strippedGroup (mergedFeature combine layer g) = g :=
        strippedGroup_mergedFeature combine layer g
          (of_decide_eq_true hkeys.2) (pyStrip_groupKey layer g hkeys.1)
      apply hnb
      rw [show strippedGroup f = g by rw [← he]; exact hsg]
      exact hg
    rw [hc1, hc2]
    exact Nat.add_zero _
  · exact mergeGroups_eq combine layer

/-- Witness for C9: the loose feature of the concrete layer survives the
merge with the same single occurrence. -/
theorem C9_witness :
    List.count featLoose (mergeGroups combineU layer0) = List.count featLoose layer0 ∧
    mergeGroups combineU layer0 =
      layer0.filter (fun x => decide (strippedGroup x ∉ bigKeys layer0)) ++
      (bigKeys layer0).map (mergedFeature combineU layer0) :=
  C9_merge_frame combineU layer0 featLoose (by decide) (Or.inl (by decide))

/-- C10: the metadata dialog defaults are the unique truthy CLIENT_NAME
(resp. FARM_NAME) value when exactly one distinct such value exists and the
empty string otherwise; and when the metadata dialog is cancelled the JSON
is still produced with ClientName and FarmName both "--". -/
theorem C10_metadata_defaults_and_cancel :
    (∀ (layer : List Feature) (c : String),
      distinctClientVals layer = [c] → defaultClient layer = c) ∧
    (∀ layer : List Feature,
      (distinctClientVals layer).length ≠ 1 → defaultClient layer = "") ∧
    (∀ (layer : List Feature) (c : String),
      distinctFarmVals layer = [c] → defaultFarm layer = c) ∧
    (∀ layer : List Feature,
      (distinctFarmVals layer).length ≠ 1 → defaultFarm layer = "") ∧
    (∀ (layer : List Feature) (env : ExportEnv) (p : String),
      env.shpPath = some p → env.writeOk = true →
      env.metaDialog (defaultClient layer) (defaultFarm layer) = none →
      exportData layer env = .ok (metadataJson "--" "--") (zipOpt env)) := by
  refine ⟨?_, ?_, ?_, ?_, ?_⟩
  · intro layer c h
    unfold defaultClient
    rw [h]
  · intro layer h
    unfold defaultClient
    cases hd : distinctClientVals layer with
    | nil => rfl
    | cons a l =>
      cases l with
      | nil => exact absurd (by rw [hd]; rfl) h
      | cons b l' => rfl
  · intro layer c h
    unfold defaultFarm
    rw [h]
  · intro layer h
    unfold defaultFarm
    cases hd : distinctFarmVals layer with
    | nil => rfl
    | cons a l =>
      cases l with
      | nil => exact absurd (by rw [hd]; rfl) h
      | cons b l' => rfl
  · intro layer env p h1 h2 hm
    unfold exportData
    rw [h1, if_pos h2, hm]

/-- Witness for C10: a cancelled metadata dialog on the concrete layer
still yields the JSON with the "--" placeholders. -/
theorem C10_witness :
    exportData layer0 envCancel = .ok (metadataJson "--" "--") (zipOpt envCancel) :=
  C10_metadata_defaults_and_cancel.2.2.2.2 layer0 envCancel "out.shp" rfl rfl rfl

end JDBoundary
